import Mathlib

/-!
# Connection & Presence Manager — shallow embedding

A shallow embedding of the real-time connection and presence manager of the
`agora` backend (`backend/app/websocket/manager.py` and the per-connection
event-loop cleanup of `backend/app/websocket/handlers.py`), with proofs of
the registry, presence, broadcast and call-tracker properties stated in the
design document.

Python dictionaries are modelled as association lists (`dget` / `dset` /
`dpop` mirror lookup, assignment and `pop`/`del`), Python sets as lists with
set-flavoured `sadd` / `sdiscard`, wall-clock timestamps as `Int` seconds
(the code truncates durations to whole seconds), and the transport-level
`send_json` — the only fallible effect in scope — as an oracle
`WS → Msg → Except Unit Unit` threaded through the delivery functions, whose
`try/except Exception: pass` wrapper is embedded as `pyTryExceptPass`.
In-place mutation of a nested dict value becomes a single `dset` of the
updated value at the same key.
-/

namespace Agora

/-! ## Python dict / set primitives -/

/-- `d[k]` lookup: the value at the first entry whose key is `k`. -/
def dget {α β : Type} [DecidableEq α] (k : α) : List (α × β) → Option β
  | [] => none
  | (k', v) :: rest => if k' = k then some v else dget k rest

/-- `d[k] = v` assignment: replace the first entry at key `k` in place, or
append a fresh entry when the key is absent. -/
def dset {α β : Type} [DecidableEq α] (k : α) (v : β) : List (α × β) → List (α × β)
  | [] => [(k, v)]
  | (k', v') :: rest => if k' = k then (k, v) :: rest else (k', v') :: dset k v rest

/-- `d.pop(k, None)` / `del d[k]`: drop every entry at key `k`. -/
def dpop {α β : Type} [DecidableEq α] (k : α) : List (α × β) → List (α × β)
  | [] => []
  | (k', v) :: rest => if k' = k then dpop k rest else (k', v) :: dpop k rest

/-- `s.add(x)` on a Python set. -/
def sadd {α : Type} [DecidableEq α] (x : α) (s : List α) : List α :=
  if x ∈ s then s else x :: s

/-- `s.discard(x)` on a Python set. -/
def sdiscard {α : Type} [DecidableEq α] (x : α) : List α → List α
  | [] => []
  | y :: rest => if y = x then sdiscard x rest else y :: sdiscard x rest

/-! ## Data model -/

/-- A structured JSON-object event: a `type` tag plus string fields. -/
structure Msg where
  type : String
  fields : List (String × String)
deriving DecidableEq

/-- `active_calls` value: `{"start_time": datetime, "participants": set}`. -/
structure CallRecord where
  start_time : Int
  participants : List String
deriving DecidableEq

/-- The mutable state of `ConnectionManager`, parametric in the transport
handle type `WS` (`fastapi.WebSocket` in the source). -/
structure ConnectionManager (WS : Type) where
  active_connections : List (String × List (String × WS))
  user_channels : List (String × List String)
  user_statuses : List (String × String)
  active_calls : List (String × CallRecord)
deriving DecidableEq

/-- The module-level `manager = ConnectionManager()` with its dataclass
defaults: all four dicts empty. -/
def manager (WS : Type) : ConnectionManager WS :=
  { active_connections := [], user_channels := [], user_statuses := [], active_calls := [] }

/-- `VALID_STATUSES = {"online", "busy", "away", "dnd", "offline"}`. -/
def VALID_STATUSES : List String := ["online", "busy", "away", "dnd", "offline"]

/-! ## Connection Registry and Presence Store operations -/

/-- `ConnectionManager.connect` (after the `await websocket.accept()`
handshake): register the handle under both indices, defaulting the user's
status to `"online"` when no entry exists. -/
def connect {WS : Type} (websocket : WS) (user_id channel_id : String)
    (m : ConnectionManager WS) : ConnectionManager WS :=
  { m with
    active_connections :=
      dset channel_id
        (dset user_id websocket ((dget channel_id m.active_connections).getD []))
        m.active_connections,
    user_channels :=
      dset user_id (sadd channel_id ((dget user_id m.user_channels).getD []))
        m.user_channels,
    user_statuses :=
      match dget user_id m.user_statuses with
      | some _ => m.user_statuses
      | none => dset user_id "online" m.user_statuses }

/-- First half of `ConnectionManager.disconnect`: drop the handle from
`active_connections[channel_id]`, deleting the channel entry when the
per-channel map becomes empty. -/
def disconnectConns {WS : Type} (user_id channel_id : String)
    (m : ConnectionManager WS) : ConnectionManager WS :=
  match dget channel_id m.active_connections with
  | none => m
  | some conns =>
      let conns' := dpop user_id conns
      if conns'.isEmpty then
        { m with active_connections := dpop channel_id m.active_connections }
      else
        { m with active_connections := dset channel_id conns' m.active_connections }

/-- Second half of `ConnectionManager.disconnect`: discard the channel from
`user_channels[user_id]`; when the user's channel set becomes empty, delete
it and pop the user's presence entry. -/
def disconnectUser {WS : Type} (user_id channel_id : String)
    (m : ConnectionManager WS) : ConnectionManager WS :=
  match dget user_id m.user_channels with
  | none => m
  | some chans =>
      let chans' := sdiscard channel_id chans
      if chans' = [] then
        { m with
          user_channels := dpop user_id m.user_channels,
          user_statuses := dpop user_id m.user_statuses }
      else
        { m with user_channels := dset user_id chans' m.user_channels }

/-- `ConnectionManager.disconnect`. -/
def disconnect {WS : Type} (user_id channel_id : String)
    (m : ConnectionManager WS) : ConnectionManager WS :=
  disconnectUser user_id channel_id (disconnectConns user_id channel_id m)

/-- `ConnectionManager.get_user_status`: `self.user_statuses.get(user_id, "offline")`. -/
def get_user_status {WS : Type} (user_id : String) (m : ConnectionManager WS) : String :=
  (dget user_id m.user_statuses).getD "offline"

/-! ## Broadcast Engine -/

/-- Whether a transport call returned normally. -/
def isOkB {ε α : Type} : Except ε α → Bool
  | .ok _ => true
  | .error _ => false

/-- `try: await ws.send_json(message) except Exception: pass` — any raise
from the wrapped call is caught and discarded. -/
def pyTryExceptPass (r : Except Unit Unit) : Except Unit Unit :=
  match r with
  | .ok x => .ok x
  | .error _ => .ok ()

/-- One entry of a delivery trace: the recipient attempted, and whether the
transport send returned normally. -/
structure Attempt where
  user : String
  delivered : Bool
deriving DecidableEq

/-- The per-recipient loop of `send_to_channel`, in the exception monad:
`for uid, ws in conns.items(): if uid != exclude_user: try send except pass`.
Returns the delivery trace; an uncaught raise would surface as `.error`. -/
def sendLoop {WS : Type} (sendJson : WS → Msg → Except Unit Unit) (message : Msg)
    (exclude_user : Option String) : List (String × WS) → Except Unit (List Attempt)
  | [] => .ok []
  | (uid, ws) :: rest =>
      if some uid = exclude_user then sendLoop sendJson message exclude_user rest
      else do
        let _ ← pyTryExceptPass (sendJson ws message)
        let trace ← sendLoop sendJson message exclude_user rest
        .ok (⟨uid, isOkB (sendJson ws message)⟩ :: trace)

/-- `ConnectionManager.send_to_channel`: early-return when the channel has no
registry entry, else run the per-recipient loop. -/
def send_to_channel {WS : Type} (sendJson : WS → Msg → Except Unit Unit)
    (channel_id : String) (message : Msg) (exclude_user : Option String)
    (m : ConnectionManager WS) : Except Unit (List Attempt) :=
  match dget channel_id m.active_connections with
  | none => .ok []
  | some conns => sendLoop sendJson message exclude_user conns

/-- The per-channel loop of `broadcast_to_user_channels`:
`for channel_id in self.user_channels.get(user_id, set()): await self.send_to_channel(...)`. -/
def broadcastLoop {WS : Type} (sendJson : WS → Msg → Except Unit Unit) (message : Msg)
    (m : ConnectionManager WS) : List String → Except Unit (List (String × List Attempt))
  | [] => .ok []
  | c :: rest => do
      let t ← send_to_channel sendJson c message none m
      let r ← broadcastLoop sendJson message m rest
      .ok ((c, t) :: r)

/-- `ConnectionManager.broadcast_to_user_channels`. -/
def broadcast_to_user_channels {WS : Type} (sendJson : WS → Msg → Except Unit Unit)
    (user_id : String) (message : Msg) (m : ConnectionManager WS) :
    Except Unit (List (String × List Attempt)) :=
  broadcastLoop sendJson message m ((dget user_id m.user_channels).getD [])

/-- The `status_change` event body built by `set_user_status`. -/
def statusChangeMsg (user_id status : String) : Msg :=
  ⟨"status_change", [("user_id", user_id), ("status", status)]⟩

/-- `ConnectionManager.set_user_status`: reject any status outside
`VALID_STATUSES`, else overwrite the record and broadcast the change to all
of the user's channels. Returns the new state with the broadcast trace. -/
def set_user_status {WS : Type} (sendJson : WS → Msg → Except Unit Unit)
    (user_id status : String) (m : ConnectionManager WS) :
    Except Unit (ConnectionManager WS × List (String × List Attempt)) :=
  if status ∈ VALID_STATUSES then
    let m' := { m with user_statuses := dset user_id status m.user_statuses }
    do
      let trace ← broadcast_to_user_channels sendJson user_id
        (statusChangeMsg user_id status) m'
      .ok (m', trace)
  else
    .ok (m, [])

/-! ## Call Session Tracker -/

/-- `ConnectionManager.join_call`: lazily create the record (with
`start_time = now` and an empty participant set), compute `is_first` from the
participant count before the add, then add the user. -/
def join_call {WS : Type} (channel_id user_id : String) (now : Int)
    (m : ConnectionManager WS) : ConnectionManager WS × Bool :=
  let call :=
    match dget channel_id m.active_calls with
    | none => ({ start_time := now, participants := [] } : CallRecord)
    | some c => c
  let is_first := call.participants.isEmpty
  ({ m with
     active_calls :=
       dset channel_id { call with participants := sadd user_id call.participants }
         m.active_calls },
   is_first)

/-- `ConnectionManager.leave_call`: discard the user from the participant
set; on the transition to empty, delete the record and return the elapsed
whole-second duration, else return `none`. -/
def leave_call {WS : Type} (channel_id user_id : String) (now : Int)
    (m : ConnectionManager WS) : ConnectionManager WS × Option Int :=
  match dget channel_id m.active_calls with
  | none => (m, none)
  | some call =>
      let parts := sdiscard user_id call.participants
      if parts.isEmpty then
        ({ m with active_calls := dpop channel_id m.active_calls },
         some (now - call.start_time))
      else
        ({ m with active_calls := dset channel_id { call with participants := parts } m.active_calls },
         none)

/-! ## Operation sequences -/

/-- A Connection Registry mutation. -/
inductive RegOp (WS : Type) where
  | connect (websocket : WS) (user_id channel_id : String)
  | disconnect (user_id channel_id : String)

/-- Apply one registry operation. -/
def applyRegOp {WS : Type} (op : RegOp WS) (m : ConnectionManager WS) : ConnectionManager WS :=
  match op with
  | .connect ws u c => connect ws u c m
  | .disconnect u c => disconnect u c m

/-- Run a sequence of registry operations from a starting state. -/
def runRegOps {WS : Type} (ops : List (RegOp WS)) (m : ConnectionManager WS) :
    ConnectionManager WS :=
  ops.foldl (fun s op => applyRegOp op s) m

/-- A Call Session Tracker mutation, tagged with the wall-clock instant at
which it runs. -/
inductive CallOp where
  | join (channel_id user_id : String) (now : Int)
  | leave (channel_id user_id : String) (now : Int)

/-- Apply one call-tracker operation (the returned flag / duration is
discarded; only the state evolves). -/
def applyCallOp {WS : Type} (op : CallOp) (m : ConnectionManager WS) : ConnectionManager WS :=
  match op with
  | .join c u now => (join_call c u now m).1
  | .leave c u now => (leave_call c u now m).1

/-- Run a sequence of call-tracker operations from a starting state. -/
def runCallOps {WS : Type} (ops : List CallOp) (m : ConnectionManager WS) :
    ConnectionManager WS :=
  ops.foldl (fun s op => applyCallOp op s) m

/-! ## Event-loop termination cleanup (`websocket_endpoint` in handlers.py) -/

/-- Why the per-connection receive loop terminated: the transport raised
`WebSocketDisconnect`, or some other exception escaped an event handler. -/
inductive TermEvent where
  | wsDisconnect
  | otherExc
deriving DecidableEq

/-- An observable cleanup effect of the loop's exception handlers. -/
inductive CleanupAction where
  | callLeft (channel_id user_id : String)
  | systemCallEndMessage (channel_id : String) (duration : Int)
  | registryDisconnect (user_id channel_id : String)
  | persistOffline (user_id : String)
  | broadcastUserLeft (channel_id : String)
deriving DecidableEq

/-- The two `except` blocks that end `websocket_endpoint`'s receive loop.
On `WebSocketDisconnect`: `leave_call` (emitting the call-end system message
when a duration is returned), `disconnect`, the offline persistence when the
user has no remaining channels, and the `user_left` broadcast. On any other
`Exception`: only `manager.disconnect(user_id, channel_id)`. -/
def onLoopExit {WS : Type} (ev : TermEvent) (user_id channel_id : String) (now : Int)
    (m : ConnectionManager WS) : ConnectionManager WS × List CleanupAction :=
  match ev with
  | .wsDisconnect =>
      let step := leave_call channel_id user_id now m
      let acts1 := [CleanupAction.callLeft channel_id user_id] ++
        (match step.2 with
         | some d => [CleanupAction.systemCallEndMessage channel_id d]
         | none => [])
      let m2 := disconnect user_id channel_id step.1
      let acts2 := acts1 ++ [CleanupAction.registryDisconnect user_id channel_id] ++
        (if (dget user_id m2.user_channels).isNone then
           [CleanupAction.persistOffline user_id]
         else []) ++
        [CleanupAction.broadcastUserLeft channel_id]
      (m2, acts2)
  | .otherExc =>
      (disconnect user_id channel_id m, [CleanupAction.registryDisconnect user_id channel_id])

/-! ## Dictionary and set lemmas -/

theorem dget_dset_self {α β : Type} [DecidableEq α] (k : α) (v : β) :
    ∀ d : List (α × β), dget k (dset k v d) = some v
  | [] => by simp [dget, dset]
  | (k', v') :: rest => by
      by_cases h : k' = k
      · simp [dget, dset, h]
      · simp [dget, dset, h, dget_dset_self k v rest]

theorem dget_dset_ne {α β : Type} [DecidableEq α] {k' k : α} (v : β) (h : k' ≠ k) :
    ∀ d : List (α × β), dget k' (dset k v d) = dget k' d
  | [] => by simp [dget, dset, Ne.symm h]
  | (k'', v') :: rest => by
      by_cases h2 : k'' = k
      · subst h2
        simp [dget, dset, Ne.symm h]
      · simp [dget, dset, h2, dget_dset_ne v h rest]

theorem dget_dpop_self {α β : Type} [DecidableEq α] (k : α) :
    ∀ d : List (α × β), dget k (dpop k d) = none
  | [] => by simp [dget, dpop]
  | (k', v') :: rest => by
      by_cases h : k' = k
      · simp [dpop, h, dget_dpop_self k rest]
      · simp [dget, dpop, h, dget_dpop_self k rest]

theorem dget_dpop_ne {α β : Type} [DecidableEq α] {k' k : α} (h : k' ≠ k) :
    ∀ d : List (α × β), dget k' (dpop k d) = dget k' d
  | [] => by simp [dget, dpop]
  | (k'', v') :: rest => by
      by_cases h2 : k'' = k
      · subst h2
        simp [dget, dpop, Ne.symm h, dget_dpop_ne h rest]
      · simp [dget, dpop, h2, dget_dpop_ne h rest]

theorem dset_eq_of_dget {α β : Type} [DecidableEq α] {k : α} {v : β} :
    ∀ {d : List (α × β)}, dget k d = some v → dset k v d = d
  | [], h => by simp [dget] at h
  | (k', v') :: rest, h => by
      by_cases h2 : k' = k
      · subst h2
        simp [dget] at h
        simp [dset, h]
      · simp [dget, h2] at h
        simp [dset, h2, dset_eq_of_dget h]

theorem dpop_eq_of_dget_none {α β : Type} [DecidableEq α] {k : α} :
    ∀ {d : List (α × β)}, dget k d = none → dpop k d = d
  | [], _ => rfl
  | (k', v') :: rest, h => by
      by_cases h2 : k' = k
      · simp [dget, h2] at h
      · simp [dget, h2] at h
        simp [dpop, h2, dpop_eq_of_dget_none h]

theorem dset_ne_nil {α β : Type} [DecidableEq α] (k : α) (v : β) :
    ∀ d : List (α × β), dset k v d ≠ []
  | [] => by simp [dset]
  | (k', v') :: rest => by
      by_cases h : k' = k <;> simp [dset, h]

theorem dget_eq_none_of_dpop_nil {α β : Type} [DecidableEq α] {k' k : α}
    (d : List (α × β)) (hnil : dpop k d = []) (h : k' ≠ k) : dget k' d = none := by
  have := dget_dpop_ne h d
  rw [hnil] at this
  simpa [dget] using this.symm

theorem mem_sadd {α : Type} [DecidableEq α] (x y : α) (s : List α) :
    y ∈ sadd x s ↔ y = x ∨ y ∈ s := by
  by_cases h : x ∈ s
  · simp only [sadd, if_pos h]
    constructor
    · exact fun hy => Or.inr hy
    · rintro (rfl | hy)
      · exact h
      · exact hy
  · simp [sadd, if_neg h]

theorem mem_sdiscard {α : Type} [DecidableEq α] (x y : α) :
    ∀ s : List α, y ∈ sdiscard x s ↔ y ∈ s ∧ y ≠ x
  | [] => by simp [sdiscard]
  | z :: rest => by
      by_cases h : z = x
      · rw [show sdiscard x (z :: rest) = sdiscard x rest from by simp [sdiscard, h]]
        rw [mem_sdiscard x y rest]
        subst h
        simp only [List.mem_cons]
        constructor
        · rintro ⟨hy, hne⟩
          exact ⟨Or.inr hy, hne⟩
        · rintro ⟨rfl | hy, hne⟩
          · exact absurd rfl hne
          · exact ⟨hy, hne⟩
      · rw [show sdiscard x (z :: rest) = z :: sdiscard x rest from by simp [sdiscard, h]]
        simp only [List.mem_cons, mem_sdiscard x y rest]
        constructor
        · rintro (rfl | ⟨hy, hne⟩)
          · exact ⟨Or.inl rfl, h⟩
          · exact ⟨Or.inr hy, hne⟩
        · rintro ⟨rfl | hy, hne⟩
          · exact Or.inl rfl
          · exact Or.inr ⟨hy, hne⟩

theorem sdiscard_eq_of_not_mem {α : Type} [DecidableEq α] {x : α} :
    ∀ {s : List α}, x ∉ s → sdiscard x s = s
  | [], _ => rfl
  | z :: rest, h => by
      have hz : z ≠ x := fun hh => h (by simp [hh])
      have hr : x ∉ rest := fun hh => h (by simp [hh])
      simp [sdiscard, hz, sdiscard_eq_of_not_mem hr]

theorem sadd_ne_nil {α : Type} [DecidableEq α] (x : α) (s : List α) :
    sadd x s ≠ [] := by
  by_cases h : x ∈ s
  · intro hnil
    rw [sadd, if_pos h] at hnil
    simp [hnil] at h
  · simp [sadd, if_neg h]

theorem eq_of_mem_of_sdiscard_nil {α : Type} [DecidableEq α] {x y : α}
    {s : List α} (hnil : sdiscard x s = []) (hy : y ∈ s) : y = x := by
  by_cases h : y = x
  · exact h
  · have := (mem_sdiscard x y s).mpr ⟨hy, h⟩
    rw [hnil] at this
    simp at this

theorem isEmptyB_iff {α : Type} (l : List α) : l.isEmpty = true ↔ l = [] := by
  cases l <;> simp

/-! ## Registry and call-tracker invariants -/

/-- Key membership in an optional per-channel map. -/
def keyOfO {β : Type} (u : String) : Option (List (String × β)) → Bool
  | none => false
  | some conns => (dget u conns).isSome

/-- Membership in an optional channel set. -/
def memOfO (c : String) : Option (List String) → Bool
  | none => false
  | some chans => decide (c ∈ chans)

/-- `user_id` is a key of `active_connections[channel_id]`. -/
def connKey {WS : Type} (m : ConnectionManager WS) (channel_id user_id : String) : Bool :=
  keyOfO user_id (dget channel_id m.active_connections)

/-- `channel_id` is a member of `user_channels[user_id]`. -/
def chanMem {WS : Type} (m : ConnectionManager WS) (user_id channel_id : String) : Bool :=
  memOfO channel_id (dget user_id m.user_channels)

/-- `active_connections[channel_id]` is absent or non-empty (never an empty
value-map at a present key). -/
def noEmptyConns {WS : Type} (m : ConnectionManager WS) (channel_id : String) : Bool :=
  match dget channel_id m.active_connections with
  | none => true
  | some conns => !conns.isEmpty

/-- Registry well-formedness: the dual indices agree, no present key maps to
an empty value (map or set), and every presence entry belongs to a user with
at least one channel. -/
def RegWF {WS : Type} (m : ConnectionManager WS) : Prop :=
  (∀ c u, connKey m c u = chanMem m u c) ∧
  (∀ c conns, dget c m.active_connections = some conns → conns ≠ []) ∧
  (∀ u chans, dget u m.user_channels = some chans → chans ≠ []) ∧
  (∀ u, (dget u m.user_statuses).isSome = true → (dget u m.user_channels).isSome = true)

/-- Call-tracker well-formedness: every present call record has a non-empty
participant set. -/
def CallsWF {WS : Type} (m : ConnectionManager WS) : Prop :=
  ∀ c call, dget c m.active_calls = some call → call.participants ≠ []

/-- `active_calls[channel_id]` is absent or has non-empty participants. -/
def callRecOk {WS : Type} (m : ConnectionManager WS) (channel_id : String) : Bool :=
  match dget channel_id m.active_calls with
  | none => true
  | some call => !call.participants.isEmpty

/-! ## Pointwise characterization of the operations -/

theorem connect_AC_get {WS : Type} (ws : WS) (u0 c0 c : String) (m : ConnectionManager WS) :
    dget c (connect ws u0 c0 m).active_connections =
      if c = c0 then some (dset u0 ws ((dget c0 m.active_connections).getD []))
      else dget c m.active_connections := by
  by_cases h : c = c0
  · subst h
    simp [connect, dget_dset_self]
  · simp [connect, h, dget_dset_ne _ h]

theorem connect_UC_get {WS : Type} (ws : WS) (u0 c0 u : String) (m : ConnectionManager WS) :
    dget u (connect ws u0 c0 m).user_channels =
      if u = u0 then some (sadd c0 ((dget u0 m.user_channels).getD []))
      else dget u m.user_channels := by
  by_cases h : u = u0
  · subst h
    simp [connect, dget_dset_self]
  · simp [connect, h, dget_dset_ne _ h]

theorem connect_US_get {WS : Type} (ws : WS) (u0 c0 u : String) (m : ConnectionManager WS) :
    dget u (connect ws u0 c0 m).user_statuses =
      if u = u0 then some ((dget u0 m.user_statuses).getD "online")
      else dget u m.user_statuses := by
  unfold connect
  cases hs : dget u0 m.user_statuses with
  | none =>
      by_cases h : u = u0
      · subst h
        simp [hs, dget_dset_self]
      · simp [hs, h, dget_dset_ne _ h]
  | some s =>
      by_cases h : u = u0
      · subst h
        simp [hs]
      · simp [hs, h]

theorem disconnectConns_AC_get {WS : Type} (u0 c0 c : String) (m : ConnectionManager WS) :
    dget c (disconnectConns u0 c0 m).active_connections =
      if c = c0 then
        match dget c0 m.active_connections with
        | none => none
        | some conns =>
            if (dpop u0 conns).isEmpty then none else some (dpop u0 conns)
      else dget c m.active_connections := by
  unfold disconnectConns
  cases hc : dget c0 m.active_connections with
  | none => by_cases h : c = c0 <;> simp [h, hc]
  | some conns =>
      by_cases he : (dpop u0 conns).isEmpty
      · by_cases h : c = c0
        · subst h
          simp [hc, he, dget_dpop_self]
        · simp [hc, he, h, dget_dpop_ne h]
      · by_cases h : c = c0
        · subst h
          simp [hc, he, dget_dset_self]
        · simp [hc, he, h, dget_dset_ne _ h]

theorem disconnectConns_UC {WS : Type} (u0 c0 : String) (m : ConnectionManager WS) :
    (disconnectConns u0 c0 m).user_channels = m.user_channels := by
  unfold disconnectConns
  cases hc : dget c0 m.active_connections with
  | none => rfl
  | some conns => by_cases he : (dpop u0 conns).isEmpty <;> simp [he]

theorem disconnectConns_US {WS : Type} (u0 c0 : String) (m : ConnectionManager WS) :
    (disconnectConns u0 c0 m).user_statuses = m.user_statuses := by
  unfold disconnectConns
  cases hc : dget c0 m.active_connections with
  | none => rfl
  | some conns => by_cases he : (dpop u0 conns).isEmpty <;> simp [he]

theorem disconnectConns_calls {WS : Type} (u0 c0 : String) (m : ConnectionManager WS) :
    (disconnectConns u0 c0 m).active_calls = m.active_calls := by
  unfold disconnectConns
  cases hc : dget c0 m.active_connections with
  | none => rfl
  | some conns => by_cases he : (dpop u0 conns).isEmpty <;> simp [he]

theorem disconnectUser_UC_get {WS : Type} (u0 c0 u : String) (m : ConnectionManager WS) :
    dget u (disconnectUser u0 c0 m).user_channels =
      if u = u0 then
        match dget u0 m.user_channels with
        | none => none
        | some chans =>
            if sdiscard c0 chans = [] then none else some (sdiscard c0 chans)
      else dget u m.user_channels := by
  unfold disconnectUser
  cases hu : dget u0 m.user_channels with
  | none => by_cases h : u = u0 <;> simp [h, hu]
  | some chans =>
      by_cases he : sdiscard c0 chans = []
      · by_cases h : u = u0
        · subst h
          simp [hu, he, dget_dpop_self]
        · simp [hu, he, h, dget_dpop_ne h]
      · by_cases h : u = u0
        · subst h
          simp [hu, he, dget_dset_self]
        · simp [hu, he, h, dget_dset_ne _ h]

theorem disconnectUser_US_get {WS : Type} (u0 c0 u : String) (m : ConnectionManager WS) :
    dget u (disconnectUser u0 c0 m).user_statuses =
      if u = u0 then
        match dget u0 m.user_channels with
        | none => dget u0 m.user_statuses
        | some chans =>
            if sdiscard c0 chans = [] then none else dget u0 m.user_statuses
      else dget u m.user_statuses := by
  unfold disconnectUser
  cases hu : dget u0 m.user_channels with
  | none => by_cases h : u = u0 <;> simp [h, hu]
  | some chans =>
      by_cases he : sdiscard c0 chans = []
      · by_cases h : u = u0
        · subst h
          simp [hu, he, dget_dpop_self]
        · simp [hu, he, h, dget_dpop_ne h]
      · by_cases h : u = u0
        · subst h
          simp [hu, he]
        · simp [hu, he, h]

theorem disconnectUser_AC {WS : Type} (u0 c0 : String) (m : ConnectionManager WS) :
    (disconnectUser u0 c0 m).active_connections = m.active_connections := by
  unfold disconnectUser
  cases hu : dget u0 m.user_channels with
  | none => rfl
  | some chans => by_cases he : sdiscard c0 chans = [] <;> simp [he]

theorem disconnectUser_calls {WS : Type} (u0 c0 : String) (m : ConnectionManager WS) :
    (disconnectUser u0 c0 m).active_calls = m.active_calls := by
  unfold disconnectUser
  cases hu : dget u0 m.user_channels with
  | none => rfl
  | some chans => by_cases he : sdiscard c0 chans = [] <;> simp [he]

theorem disconnect_AC_get {WS : Type} (u0 c0 c : String) (m : ConnectionManager WS) :
    dget c (disconnect u0 c0 m).active_connections =
      if c = c0 then
        match dget c0 m.active_connections with
        | none => none
        | some conns =>
            if (dpop u0 conns).isEmpty then none else some (dpop u0 conns)
      else dget c m.active_connections := by
  unfold disconnect
  rw [disconnectUser_AC, disconnectConns_AC_get]

theorem disconnect_UC_get {WS : Type} (u0 c0 u : String) (m : ConnectionManager WS) :
    dget u (disconnect u0 c0 m).user_channels =
      if u = u0 then
        match dget u0 m.user_channels with
        | none => none
        | some chans =>
            if sdiscard c0 chans = [] then none else some (sdiscard c0 chans)
      else dget u m.user_channels := by
  unfold disconnect
  rw [disconnectUser_UC_get, disconnectConns_UC]

theorem disconnect_US_get {WS : Type} (u0 c0 u : String) (m : ConnectionManager WS) :
    dget u (disconnect u0 c0 m).user_statuses =
      if u = u0 then
        match dget u0 m.user_channels with
        | none => dget u0 m.user_statuses
        | some chans =>
            if sdiscard c0 chans = [] then none else dget u0 m.user_statuses
      else dget u m.user_statuses := by
  unfold disconnect
  rw [disconnectUser_US_get, disconnectConns_UC, disconnectConns_US]

theorem disconnect_calls {WS : Type} (u0 c0 : String) (m : ConnectionManager WS) :
    (disconnect u0 c0 m).active_calls = m.active_calls := by
  unfold disconnect
  rw [disconnectUser_calls, disconnectConns_calls]

theorem join_call_calls_get {WS : Type} (c0 u0 : String) (now : Int) (c : String)
    (m : ConnectionManager WS) :
    dget c (join_call c0 u0 now m).1.active_calls =
      if c = c0 then
        match dget c0 m.active_calls with
        | none => some ⟨now, sadd u0 []⟩
        | some call => some ⟨call.start_time, sadd u0 call.participants⟩
      else dget c m.active_calls := by
  unfold join_call
  cases hc : dget c0 m.active_calls with
  | none =>
      by_cases h : c = c0
      · subst h
        simp [hc, dget_dset_self]
      · simp [hc, h, dget_dset_ne _ h]
  | some call =>
      by_cases h : c = c0
      · subst h
        simp [hc, dget_dset_self]
      · simp [hc, h, dget_dset_ne _ h]

theorem leave_call_calls_get {WS : Type} (c0 u0 : String) (now : Int) (c : String)
    (m : ConnectionManager WS) :
    dget c (leave_call c0 u0 now m).1.active_calls =
      if c = c0 then
        match dget c0 m.active_calls with
        | none => none
        | some call =>
            if (sdiscard u0 call.participants).isEmpty then none
            else some ⟨call.start_time, sdiscard u0 call.participants⟩
      else dget c m.active_calls := by
  unfold leave_call
  cases hc : dget c0 m.active_calls with
  | none => by_cases h : c = c0 <;> simp [h, hc]
  | some call =>
      by_cases he : (sdiscard u0 call.participants).isEmpty
      · by_cases h : c = c0
        · subst h
          simp [hc, he, dget_dpop_self]
        · simp [hc, he, h, dget_dpop_ne h]
      · by_cases h : c = c0
        · subst h
          simp [hc, he, dget_dset_self]
        · simp [hc, he, h, dget_dset_ne _ h]

/-! ## Invariant preservation -/

theorem regWF_connect {WS : Type} (ws : WS) (u0 c0 : String) {m : ConnectionManager WS}
    (hm : RegWF m) : RegWF (connect ws u0 c0 m) := by
  obtain ⟨h1, h2, h3, h4⟩ := hm
  refine ⟨?_, ?_, ?_, ?_⟩
  · intro c u
    unfold connKey chanMem
    rw [connect_AC_get, connect_UC_get]
    by_cases hc : c = c0 <;> by_cases hu : u = u0
    · subst hc; subst hu
      simp [keyOfO, memOfO, dget_dset_self, mem_sadd]
    · rw [hc]
      have H := h1 c0 u
      unfold connKey chanMem at H
      simp only [if_pos rfl, if_neg hu]
      cases hac : dget c0 m.active_connections with
      | none =>
          rw [hac] at H
          simpa [keyOfO, dget, dset, Ne.symm hu] using H
      | some conns =>
          rw [hac] at H
          simpa [keyOfO, dget_dset_ne _ hu] using H
    · rw [hu]
      have H := h1 c u0
      unfold connKey chanMem at H
      simp only [if_neg hc, if_pos rfl]
      cases huc : dget u0 m.user_channels with
      | none =>
          rw [huc] at H
          simpa [memOfO, mem_sadd, hc] using H
      | some chans =>
          rw [huc] at H
          simpa [memOfO, mem_sadd, hc] using H
    · simp only [if_neg hc, if_neg hu]
      exact h1 c u
  · intro c conns h
    rw [connect_AC_get] at h
    by_cases hc : c = c0
    · rw [if_pos hc] at h
      cases h
      exact dset_ne_nil _ _ _
    · rw [if_neg hc] at h
      exact h2 c conns h
  · intro u chans h
    rw [connect_UC_get] at h
    by_cases hu : u = u0
    · rw [if_pos hu] at h
      cases h
      exact sadd_ne_nil _ _
    · rw [if_neg hu] at h
      exact h3 u chans h
  · intro u hs
    rw [connect_US_get] at hs
    rw [connect_UC_get]
    by_cases hu : u = u0
    · simp [if_pos hu]
    · rw [if_neg hu] at hs
      rw [if_neg hu]
      exact h4 u hs

theorem regWF_disconnect {WS : Type} (u0 c0 : String) {m : ConnectionManager WS}
    (hm : RegWF m) : RegWF (disconnect u0 c0 m) := by
  obtain ⟨h1, h2, h3, h4⟩ := hm
  refine ⟨?_, ?_, ?_, ?_⟩
  · intro c u
    unfold connKey chanMem
    rw [disconnect_AC_get, disconnect_UC_get]
    by_cases hc : c = c0 <;> by_cases hu : u = u0
    · simp only [if_pos hc, if_pos hu]
      cases hac : dget c0 m.active_connections with
      | none =>
          cases huc : dget u0 m.user_channels with
          | none => simp [keyOfO, memOfO]
          | some chans =>
              by_cases he : sdiscard c0 chans = [] <;>
                simp [keyOfO, memOfO, he, mem_sdiscard, hc]
      | some conns =>
          by_cases he : (dpop u0 conns).isEmpty <;>
          · cases huc : dget u0 m.user_channels with
            | none => simp [keyOfO, memOfO, he, hu, dget_dpop_self]
            | some chans =>
                by_cases he2 : sdiscard c0 chans = [] <;>
                  simp [keyOfO, memOfO, he, he2, hu, hc, dget_dpop_self, mem_sdiscard]
    · rw [hc]
      have H := h1 c0 u
      unfold connKey chanMem at H
      simp only [if_pos rfl, if_neg hu]
      cases hac : dget c0 m.active_connections with
      | none =>
          rw [hac] at H
          simpa [keyOfO] using H
      | some conns =>
          rw [hac] at H
          by_cases he : (dpop u0 conns).isEmpty
          · have hnil : dpop u0 conns = [] := (isEmptyB_iff _).mp he
            have hnone : dget u conns = none := dget_eq_none_of_dpop_nil conns hnil hu
            rw [← H]
            simp [keyOfO, he, hnone]
          · rw [← H]
            simp [keyOfO, he, dget_dpop_ne hu]
    · rw [hu]
      have H := h1 c u0
      unfold connKey chanMem at H
      simp only [if_neg hc, if_pos rfl]
      cases huc : dget u0 m.user_channels with
      | none =>
          rw [huc] at H
          simpa [memOfO] using H
      | some chans =>
          rw [huc] at H
          by_cases he : sdiscard c0 chans = []
          · have hnm : c ∉ chans := fun hmem => hc (eq_of_mem_of_sdiscard_nil he hmem)
            rw [H]
            simp [memOfO, he, hnm]
          · rw [H]
            simp [memOfO, he, mem_sdiscard, hc]
    · simp only [if_neg hc, if_neg hu]
      exact h1 c u
  · intro c conns h
    rw [disconnect_AC_get] at h
    by_cases hc : c = c0
    · rw [if_pos hc] at h
      cases hac : dget c0 m.active_connections with
      | none => rw [hac] at h; cases h
      | some conns0 =>
          rw [hac] at h
          by_cases he : (dpop u0 conns0).isEmpty
          · simp [he] at h
          · simp [he] at h
            intro hnil
            rw [← h] at hnil
            exact he ((isEmptyB_iff _).mpr hnil)
    · rw [if_neg hc] at h
      exact h2 c conns h
  · intro u chans h
    rw [disconnect_UC_get] at h
    by_cases hu : u = u0
    · rw [if_pos hu] at h
      cases huc : dget u0 m.user_channels with
      | none => rw [huc] at h; cases h
      | some chans0 =>
          rw [huc] at h
          by_cases he : sdiscard c0 chans0 = []
          · simp [he] at h
          · simp [he] at h
            rw [← h]
            exact he
    · rw [if_neg hu] at h
      exact h3 u chans h
  · intro u hs
    rw [disconnect_US_get] at hs
    rw [disconnect_UC_get]
    by_cases hu : u = u0
    · simp only [if_pos hu] at hs ⊢
      cases huc : dget u0 m.user_channels with
      | none =>
          rw [huc] at hs
          have h5 := h4 u0 hs
          rw [huc] at h5
          simp at h5
      | some chans =>
          rw [huc] at hs
          by_cases he : sdiscard c0 chans = []
          · simp [he] at hs
          · simp [he]
    · rw [if_neg hu] at hs
      rw [if_neg hu]
      exact h4 u hs

theorem regWF_manager (WS : Type) : RegWF (manager WS) :=
  ⟨fun _ _ => rfl,
   fun _ conns h => by simp [manager, dget] at h,
   fun _ chans h => by simp [manager, dget] at h,
   fun u h => by simp [manager, dget, keyOfO] at h⟩

theorem regWF_run {WS : Type} :
    ∀ (ops : List (RegOp WS)) (m : ConnectionManager WS), RegWF m → RegWF (runRegOps ops m)
  | [], _, hm => hm
  | op :: rest, m, hm => by
      have hstep : RegWF (applyRegOp op m) := by
        cases op with
        | connect ws u c => exact regWF_connect ws u c hm
        | disconnect u c => exact regWF_disconnect u c hm
      simpa [runRegOps, List.foldl] using regWF_run rest (applyRegOp op m) hstep

theorem callsWF_join {WS : Type} (c0 u0 : String) (now : Int) {m : ConnectionManager WS}
    (hm : CallsWF m) : CallsWF (join_call c0 u0 now m).1 := by
  intro c call h
  rw [join_call_calls_get] at h
  by_cases hc : c = c0
  · rw [if_pos hc] at h
    cases hac : dget c0 m.active_calls with
    | none =>
        rw [hac] at h
        simp at h
        rw [← h]
        exact sadd_ne_nil u0 []
    | some call0 =>
        rw [hac] at h
        simp at h
        rw [← h]
        exact sadd_ne_nil u0 call0.participants
  · rw [if_neg hc] at h
    exact hm c call h

theorem callsWF_leave {WS : Type} (c0 u0 : String) (now : Int) {m : ConnectionManager WS}
    (hm : CallsWF m) : CallsWF (leave_call c0 u0 now m).1 := by
  intro c call h
  rw [leave_call_calls_get] at h
  by_cases hc : c = c0
  · rw [if_pos hc] at h
    cases hac : dget c0 m.active_calls with
    | none => rw [hac] at h; cases h
    | some call0 =>
        rw [hac] at h
        by_cases he : (sdiscard u0 call0.participants).isEmpty
        · simp [he] at h
        · simp [he] at h
          rw [← h]
          intro hnil
          exact he ((isEmptyB_iff _).mpr hnil)
  · rw [if_neg hc] at h
    exact hm c call h

theorem callsWF_manager (WS : Type) : CallsWF (manager WS) := by
  intro c call h
  simp [manager, dget] at h

theorem callsWF_run {WS : Type} :
    ∀ (ops : List CallOp) (m : ConnectionManager WS), CallsWF m → CallsWF (runCallOps ops m)
  | [], _, hm => hm
  | op :: rest, m, hm => by
      have hstep : CallsWF (applyCallOp op m) := by
        cases op with
        | join c u now => exact callsWF_join c u now hm
        | leave c u now => exact callsWF_leave c u now hm
      simpa [runCallOps, List.foldl] using callsWF_run rest (applyCallOp op m) hstep

/-! ## Delivery traces -/

/-- The pure delivery trace of the per-recipient send loop. -/
def sendTrace {WS : Type} (sendJson : WS → Msg → Except Unit Unit) (message : Msg)
    (exclude_user : Option String) : List (String × WS) → List Attempt
  | [] => []
  | (uid, ws) :: rest =>
      if some uid = exclude_user then sendTrace sendJson message exclude_user rest
      else ⟨uid, isOkB (sendJson ws message)⟩ :: sendTrace sendJson message exclude_user rest

theorem sendLoop_ok {WS : Type} (sendJson : WS → Msg → Except Unit Unit) (message : Msg)
    (excl : Option String) :
    ∀ conns : List (String × WS),
      sendLoop sendJson message excl conns = .ok (sendTrace sendJson message excl conns)
  | [] => rfl
  | (uid, ws) :: rest => by
      by_cases h : some uid = excl
      · simp [sendLoop, sendTrace, h, sendLoop_ok sendJson message excl rest]
      · cases hres : sendJson ws message <;>
          simp [sendLoop, sendTrace, h, hres, pyTryExceptPass, isOkB,
            sendLoop_ok sendJson message excl rest, Bind.bind, Except.bind]

/-- The delivery trace of `send_to_channel`. -/
def channelTrace {WS : Type} (sendJson : WS → Msg → Except Unit Unit) (message : Msg)
    (exclude_user : Option String) (m : ConnectionManager WS) (channel_id : String) :
    List Attempt :=
  sendTrace sendJson message exclude_user ((dget channel_id m.active_connections).getD [])

theorem send_to_channel_ok {WS : Type} (sendJson : WS → Msg → Except Unit Unit)
    (c : String) (message : Msg) (excl : Option String) (m : ConnectionManager WS) :
    send_to_channel sendJson c message excl m = .ok (channelTrace sendJson message excl m c) := by
  unfold send_to_channel channelTrace
  cases h : dget c m.active_connections with
  | none => simp [sendTrace]
  | some conns => simp [sendLoop_ok]

/-- The per-channel trace of `broadcast_to_user_channels`. -/
def broadcastTrace {WS : Type} (sendJson : WS → Msg → Except Unit Unit) (user_id : String)
    (message : Msg) (m : ConnectionManager WS) : List (String × List Attempt) :=
  ((dget user_id m.user_channels).getD []).map
    (fun c => (c, channelTrace sendJson message none m c))

theorem broadcastLoop_ok {WS : Type} (sendJson : WS → Msg → Except Unit Unit) (message : Msg)
    (m : ConnectionManager WS) :
    ∀ cs : List String,
      broadcastLoop sendJson message m cs =
        .ok (cs.map (fun c => (c, channelTrace sendJson message none m c)))
  | [] => rfl
  | c :: rest => by
      simp [broadcastLoop, send_to_channel_ok, broadcastLoop_ok sendJson message m rest,
        Bind.bind, Except.bind]

theorem broadcast_to_user_channels_ok {WS : Type} (sendJson : WS → Msg → Except Unit Unit)
    (u : String) (message : Msg) (m : ConnectionManager WS) :
    broadcast_to_user_channels sendJson u message m =
      .ok (broadcastTrace sendJson u message m) := by
  unfold broadcast_to_user_channels broadcastTrace
  exact broadcastLoop_ok sendJson message m _

theorem sendTrace_characterization {WS : Type} (sendJson : WS → Msg → Except Unit Unit)
    (message : Msg) (excl : Option String) :
    ∀ conns : List (String × WS),
      sendTrace sendJson message excl conns =
        (conns.filter (fun p => !decide (some p.1 = excl))).map
          (fun p => ⟨p.1, isOkB (sendJson p.2 message)⟩)
  | [] => rfl
  | (uid, ws) :: rest => by
      by_cases h : some uid = excl <;>
        simp [sendTrace, h, sendTrace_characterization sendJson message excl rest]

theorem sendTrace_users {WS : Type} (sendJson : WS → Msg → Except Unit Unit)
    (message : Msg) (excl : Option String) (conns : List (String × WS)) :
    (sendTrace sendJson message excl conns).map Attempt.user =
      (conns.map Prod.fst).filter (fun uid => decide (some uid ≠ excl)) := by
  induction conns with
  | nil => rfl
  | cons p rest ih =>
      obtain ⟨uid, ws⟩ := p
      by_cases h : some uid = excl <;> simp [sendTrace, h, ih]

/-! ## The claims -/

/-- C1: after every finite sequence of `connect`/`disconnect` operations from
the empty registry, `user_id` is a key of `active_connections[channel_id]` if
and only if `channel_id` is a member of `user_channels[user_id]`, and no key
of `active_connections` maps to an empty per-channel map. -/
theorem c1_registry_dual_index (WS : Type) (ops : List (RegOp WS)) (c u : String) :
    connKey (runRegOps ops (manager WS)) c u = chanMem (runRegOps ops (manager WS)) u c ∧
    noEmptyConns (runRegOps ops (manager WS)) c = true := by
  obtain ⟨h1, h2, -, -⟩ := regWF_run ops (manager WS) (regWF_manager WS)
  refine ⟨h1 c u, ?_⟩
  unfold noEmptyConns
  cases hac : dget c (runRegOps ops (manager WS)).active_connections with
  | none => rfl
  | some conns =>
      have hne := h2 c conns hac
      cases conns with
      | nil => exact absurd rfl hne
      | cons a l => rfl

/-- C2: after every finite sequence of `join_call`/`leave_call` operations
from no calls, a call record exists only with a non-empty participant set;
and the `leave_call` that empties the participant set deletes the record and
returns the elapsed duration in that same operation. -/
theorem c2_call_record_iff_nonempty (WS : Type) (ops : List CallOp) (c u : String) (now : Int) :
    callRecOk (runCallOps ops (manager WS)) c = true ∧
    (∀ call, dget c (runCallOps ops (manager WS)).active_calls = some call →
      sdiscard u call.participants = [] →
      leave_call c u now (runCallOps ops (manager WS)) =
        ({ runCallOps ops (manager WS) with
           active_calls := dpop c (runCallOps ops (manager WS)).active_calls },
         some (now - call.start_time))) := by
  have hwf := callsWF_run ops (manager WS) (callsWF_manager WS)
  constructor
  · unfold callRecOk
    cases hac : dget c (runCallOps ops (manager WS)).active_calls with
    | none => rfl
    | some call =>
        have hne := hwf c call hac
        show (!call.participants.isEmpty) = true
        cases hp : call.participants with
        | nil => exact absurd hp hne
        | cons a l => rfl
  · intro call hac hnil
    unfold leave_call
    rw [hac]
    simp [hnil]

/-- C2 witness: the single-participant call started at time 2 is torn down by
that participant's leave at time 10, returning duration 8. -/
theorem c2_call_record_iff_nonempty_witness :
    leave_call "general" "A" 10 (runCallOps [CallOp.join "general" "A" 2] (manager Unit)) =
      ({ runCallOps [CallOp.join "general" "A" 2] (manager Unit) with
         active_calls :=
           dpop "general" (runCallOps [CallOp.join "general" "A" 2] (manager Unit)).active_calls },
       some (10 - 2)) :=
  (c2_call_record_iff_nonempty Unit [CallOp.join "general" "A" 2] "general" "A" 10).2
    ⟨2, ["A"]⟩ (by decide) (by decide)

/-- C4: `get_status` returns `"offline"` for any user with no presence entry
(in particular, over `connect`/`disconnect` sequences, any user with no
active connection), `"online"` immediately after a first `connect` with no
prior entry, and a `connect` for a user with an existing entry leaves the
entry unchanged. -/
theorem c4_presence_lifecycle (WS : Type) (ops : List (RegOp WS)) :
    (∀ u (m : ConnectionManager WS), dget u m.user_statuses = none →
      get_user_status u m = "offline") ∧
    (∀ u, dget u (runRegOps ops (manager WS)).user_channels = none →
      get_user_status u (runRegOps ops (manager WS)) = "offline") ∧
    (∀ (ws : WS) u c (m : ConnectionManager WS), dget u m.user_statuses = none →
      get_user_status u (connect ws u c m) = "online") ∧
    (∀ (ws : WS) u c s (m : ConnectionManager WS), dget u m.user_statuses = some s →
      dget u (connect ws u c m).user_statuses = some s) := by
  refine ⟨?_, ?_, ?_, ?_⟩
  · intro u m h
    unfold get_user_status
    rw [h]
    rfl
  · intro u h
    obtain ⟨-, -, -, h4⟩ := regWF_run ops (manager WS) (regWF_manager WS)
    unfold get_user_status
    cases hs : dget u (runRegOps ops (manager WS)).user_statuses with
    | none => rfl
    | some st =>
        have hsome := h4 u (by simp [hs])
        rw [h] at hsome
        simp at hsome
  · intro ws u c m h
    unfold get_user_status
    rw [connect_US_get]
    simp [h]
  · intro ws u c s m h
    rw [connect_US_get]
    simp [h]

/-- C4 witness: concrete presence-lifecycle checks on singleton states. -/
theorem c4_presence_lifecycle_witness :
    get_user_status "A" (manager Unit) = "offline" ∧
    get_user_status "A"
      (runRegOps [RegOp.connect () "A" "g", RegOp.disconnect "A" "g"] (manager Unit)) =
        "offline" ∧
    get_user_status "A" (connect () "A" "g" (manager Unit)) = "online" ∧
    dget "A" (connect () "A" "g2" (connect () "A" "g" (manager Unit))).user_statuses =
      some "online" := by
  have h := c4_presence_lifecycle Unit [RegOp.connect () "A" "g", RegOp.disconnect "A" "g"]
  exact ⟨h.1 "A" (manager Unit) (by decide),
    h.2.1 "A" (by decide),
    h.2.2.1 () "A" "g" (manager Unit) (by decide),
    h.2.2.2 () "A" "g2" "online" (connect () "A" "g" (manager Unit)) (by decide)⟩

/-- C5: `set_user_status` silently no-ops (state unchanged, no delivery, no
raise) on a status outside `VALID_STATUSES`; on a valid status it overwrites
the user's record and broadcasts the `status_change` event to every channel
currently in the user's channel set. -/
theorem c5_set_status_validation (WS : Type) (sendJson : WS → Msg → Except Unit Unit)
    (u st : String) (m : ConnectionManager WS) :
    (st ∉ VALID_STATUSES → set_user_status sendJson u st m = .ok (m, [])) ∧
    (st ∈ VALID_STATUSES →
      set_user_status sendJson u st m =
        .ok ({ m with user_statuses := dset u st m.user_statuses },
             broadcastTrace sendJson u (statusChangeMsg u st) m) ∧
      (broadcastTrace sendJson u (statusChangeMsg u st) m).map Prod.fst =
        (dget u m.user_channels).getD [] ∧
      (∀ p, p ∈ broadcastTrace sendJson u (statusChangeMsg u st) m →
        p.2 = channelTrace sendJson (statusChangeMsg u st) none m p.1)) := by
  constructor
  · intro h
    unfold set_user_status
    rw [if_neg h]
  · intro h
    refine ⟨?_, ?_, ?_⟩
    · unfold set_user_status
      rw [if_pos h]
      have hb := broadcast_to_user_channels_ok sendJson u (statusChangeMsg u st)
        { m with user_statuses := dset u st m.user_statuses }
      simp only [hb, Bind.bind, Except.bind]
      rfl
    · unfold broadcastTrace
      rw [List.map_map]
      exact List.map_id _
    · intro p hp
      unfold broadcastTrace at hp
      obtain ⟨c2, -, rfl⟩ := List.mem_map.mp hp
      rfl

/-- C5 witness: an out-of-enumeration status is a silent no-op; a valid
status overwrites the record and broadcasts to the user's one channel. -/
theorem c5_set_status_validation_witness :
    set_user_status (fun (_ : Unit) _ => Except.ok ()) "A" "nonsense" (manager Unit) =
      .ok (manager Unit, []) ∧
    set_user_status (fun (_ : Unit) _ => Except.ok ()) "A" "busy"
      (connect () "A" "g" (manager Unit)) =
      .ok ({ connect () "A" "g" (manager Unit) with
             user_statuses := dset "A" "busy" (connect () "A" "g" (manager Unit)).user_statuses },
           broadcastTrace (fun _ _ => Except.ok ()) "A" (statusChangeMsg "A" "busy")
             (connect () "A" "g" (manager Unit))) :=
  ⟨(c5_set_status_validation Unit (fun _ _ => Except.ok ()) "A" "nonsense" (manager Unit)).1
     (by decide),
   ((c5_set_status_validation Unit (fun _ _ => Except.ok ()) "A" "busy"
       (connect () "A" "g" (manager Unit))).2 (by decide)).1⟩

/-- C6: `send_to_channel` attempts delivery to exactly the registered members
of the channel other than `exclude_user`; an unregistered channel yields zero
deliveries and no error. -/
theorem c6_broadcast_exclusion (WS : Type) (sendJson : WS → Msg → Except Unit Unit)
    (c : String) (message : Msg) (excl : Option String) (m : ConnectionManager WS) :
    send_to_channel sendJson c message excl m = .ok (channelTrace sendJson message excl m c) ∧
    (channelTrace sendJson message excl m c).map Attempt.user =
      (((dget c m.active_connections).getD []).map Prod.fst).filter
        (fun uid => decide (some uid ≠ excl)) ∧
    (dget c m.active_connections = none → send_to_channel sendJson c message excl m = .ok []) := by
  refine ⟨send_to_channel_ok sendJson c message excl m, ?_, ?_⟩
  · unfold channelTrace
    exact sendTrace_users sendJson message excl _
  · intro h
    unfold send_to_channel
    rw [h]

/-- C6 witness: a channel with no registry entry, and a channel whose only
member is the excluded user, both give zero attempted deliveries without
error. -/
theorem c6_broadcast_exclusion_witness :
    send_to_channel (fun (_ : Unit) _ => Except.ok ()) "nochannel" ⟨"typing", []⟩ none
      (manager Unit) = .ok [] ∧
    (channelTrace (fun (_ : Unit) _ => Except.ok ()) ⟨"typing", []⟩ (some "A")
      (connect () "A" "g" (manager Unit)) "g").map Attempt.user = [] :=
  ⟨(c6_broadcast_exclusion Unit (fun _ _ => Except.ok ()) "nochannel" ⟨"typing", []⟩ none
      (manager Unit)).2.2 (by decide),
   by
    have h := (c6_broadcast_exclusion Unit (fun _ _ => Except.ok ()) "g" ⟨"typing", []⟩
      (some "A") (connect () "A" "g" (manager Unit))).2.1
    rw [h]
    decide⟩

/-- The three-member demo registry for partial-delivery fault tolerance:
handles 1, 2, 3 for users A, B, C on channel g. -/
def demoManager : ConnectionManager Nat :=
  connect 3 "C" "g" (connect 2 "B" "g" (connect 1 "A" "g" (manager Nat)))

/-- A transport oracle that raises exactly on handle 2 (user B). -/
def demoSend : Nat → Msg → Except Unit Unit :=
  fun handle _ => if handle = 2 then .error () else .ok ()

/-- A fixed event used in the demo. -/
def demoMsg : Msg := ⟨"typing", []⟩

/-- C7: delivery failures are swallowed per recipient: `send_to_channel`
always returns normally, its attempted recipients are independent of which
sends fail, each attempt records exactly its own handle's outcome, and in the
three-member demo where B's handle raises, A and C are still delivered to. -/
theorem c7_partial_delivery_tolerance (WS : Type) (sendJson : WS → Msg → Except Unit Unit)
    (c : String) (message : Msg) (excl : Option String) (m : ConnectionManager WS) :
    isOkB (send_to_channel sendJson c message excl m) = true ∧
    channelTrace sendJson message excl m c =
      (((dget c m.active_connections).getD []).filter
        (fun p => !decide (some p.1 = excl))).map
          (fun p => ⟨p.1, isOkB (sendJson p.2 message)⟩) ∧
    (channelTrace sendJson message excl m c).map Attempt.user =
      (channelTrace (fun _ _ => Except.ok ()) message excl m c).map Attempt.user ∧
    ((channelTrace demoSend demoMsg none demoManager "g").filter
      (fun a => a.delivered)).map Attempt.user = ["A", "C"] := by
  refine ⟨?_, ?_, ?_, ?_⟩
  · rw [send_to_channel_ok]
    rfl
  · unfold channelTrace
    exact sendTrace_characterization sendJson message excl _
  · simp [channelTrace, sendTrace_users]
  · decide

/-- A call on channel g started by A at time 0. -/
def mJoinA : ConnectionManager Unit := (join_call "g" "A" 0 (manager Unit)).1

/-- The same call after B also joined at time 5. -/
def mJoinAB : ConnectionManager Unit := (join_call "g" "B" 5 mJoinA).1

/-- C8: `leave_call` discards the user if present; on the transition to an
empty participant set it deletes the record and returns the whole-second
difference `now - start_time`, otherwise it returns none; and it is a
non-raising no-op returning none when the user is not a participant or the
channel has no active call. -/
theorem c8_leave_call_semantics (WS : Type) (c u : String) (now : Int)
    (m : ConnectionManager WS) :
    (dget c m.active_calls = none → leave_call c u now m = (m, none)) ∧
    (∀ call, dget c m.active_calls = some call →
      (sdiscard u call.participants = [] →
        leave_call c u now m =
          ({ m with active_calls := dpop c m.active_calls }, some (now - call.start_time))) ∧
      (sdiscard u call.participants ≠ [] →
        leave_call c u now m =
          ({ m with
             active_calls :=
               dset c ⟨call.start_time, sdiscard u call.participants⟩ m.active_calls },
           none))) ∧
    (CallsWF m → (∀ call, dget c m.active_calls = some call → u ∉ call.participants) →
      (leave_call c u now m).2 = none) := by
  refine ⟨?_, ?_, ?_⟩
  · intro h
    unfold leave_call
    rw [h]
  · intro call hac
    constructor
    · intro hnil
      unfold leave_call
      rw [hac]
      simp [hnil]
    · intro hne
      unfold leave_call
      rw [hac]
      have hE : (sdiscard u call.participants).isEmpty = false := by
        cases hd : sdiscard u call.participants
        · exact absurd hd hne
        · rfl
      simp [hE]
  · intro hwf hnp
    cases hac : dget c m.active_calls with
    | none =>
        unfold leave_call
        rw [hac]
    | some call =>
        have hdisc : sdiscard u call.participants = call.participants :=
          sdiscard_eq_of_not_mem (hnp call hac)
        have hne := hwf c call hac
        have hE : (sdiscard u call.participants).isEmpty = false := by
          rw [hdisc]
          cases hd : call.participants
          · exact absurd hd hne
          · rfl
        unfold leave_call
        rw [hac]
        simp [hE]

/-- C8 witness: leaving an absent channel is a no-op; the sole participant's
leave tears down and returns the duration; a two-party leave returns none;
a non-participant's leave returns none. -/
theorem c8_leave_call_semantics_witness :
    leave_call "x" "A" 9 mJoinA = (mJoinA, none) ∧
    leave_call "g" "A" 9 mJoinA =
      ({ mJoinA with active_calls := dpop "g" mJoinA.active_calls }, some (9 - 0)) ∧
    leave_call "g" "A" 9 mJoinAB =
      ({ mJoinAB with
         active_calls :=
           dset "g" ⟨0, sdiscard "A" (["B", "A"] : List String)⟩ mJoinAB.active_calls },
       none) ∧
    (leave_call "g" "Z" 9 mJoinA).2 = none := by
  refine ⟨(c8_leave_call_semantics Unit "x" "A" 9 mJoinA).1 (by decide),
    ((c8_leave_call_semantics Unit "g" "A" 9 mJoinA).2.1 ⟨0, ["A"]⟩ (by decide)).1 (by decide),
    ((c8_leave_call_semantics Unit "g" "A" 9 mJoinAB).2.1 ⟨0, ["B", "A"]⟩ (by decide)).2
      (by decide),
    (c8_leave_call_semantics Unit "g" "Z" 9 mJoinA).2.2
      (callsWF_join "g" "A" 0 (callsWF_manager Unit)) ?_⟩
  intro call hcall
  have hx : dget "g" mJoinA.active_calls = some (⟨0, ["A"]⟩ : CallRecord) := by decide
  rw [hx] at hcall
  injection hcall with hcall
  rw [← hcall]
  decide

/-- C9: `join_call` returns true exactly when the channel had no active call
(equivalently, on well-formed states, when the participant set was empty
before the add); a second join on a still-active call returns false; the
start_time is set only at record creation. -/
theorem c9_join_call_is_first (WS : Type) (c u : String) (now : Int)
    (m : ConnectionManager WS) (hwf : CallsWF m) :
    ((join_call c u now m).2 = true ↔ dget c m.active_calls = none) ∧
    (∀ call, dget c m.active_calls = some call →
      dget c (join_call c u now m).1.active_calls =
        some ⟨call.start_time, sadd u call.participants⟩) ∧
    (dget c m.active_calls = none →
      dget c (join_call c u now m).1.active_calls = some ⟨now, sadd u []⟩) := by
  refine ⟨?_, ?_, ?_⟩
  · cases hac : dget c m.active_calls with
    | none => simp [join_call, hac]
    | some call =>
        have hne := hwf c call hac
        have hE : call.participants.isEmpty = false := by
          cases hd : call.participants
          · exact absurd hd hne
          · rfl
        simp [join_call, hac, hE]
  · intro call hac
    rw [join_call_calls_get]
    simp [hac]
  · intro hac
    rw [join_call_calls_get]
    simp [hac]

/-- C9 witness: the first joiner gets true, the second joiner on the still
active call gets false, and the record keeps the first joiner's start time. -/
theorem c9_join_call_is_first_witness :
    (join_call "g" "A" 0 (manager Unit)).2 = true ∧
    (join_call "g" "B" 5 mJoinA).2 = false ∧
    dget "g" (join_call "g" "B" 5 mJoinA).1.active_calls = some ⟨0, sadd "B" ["A"]⟩ := by
  refine ⟨?_, ?_, ?_⟩
  · exact (c9_join_call_is_first Unit "g" "A" 0 (manager Unit) (callsWF_manager Unit)).1.mpr
      (by decide)
  · have h := (c9_join_call_is_first Unit "g" "B" 5 mJoinA
      (callsWF_join "g" "A" 0 (callsWF_manager Unit))).1
    cases hb : (join_call "g" "B" 5 mJoinA).2
    · rfl
    · have hnone := h.mp hb
      have hx : dget "g" mJoinA.active_calls = some (⟨0, ["A"]⟩ : CallRecord) := by decide
      rw [hx] at hnone
      exact Option.noConfusion hnone
  · exact (c9_join_call_is_first Unit "g" "B" 5 mJoinA
      (callsWF_join "g" "A" 0 (callsWF_manager Unit))).2.1 ⟨0, ["A"]⟩ (by decide)

/-- C10: `disconnect` is total, leaves every other channel's connections and
every other user's channels and presence untouched, never touches the call
tracker, and on a well-formed state is a complete no-op for an unregistered
(user, channel) pair. -/
theorem c10_disconnect_total (WS : Type) (u c : String) (m : ConnectionManager WS) :
    (∀ c2, c2 ≠ c → dget c2 (disconnect u c m).active_connections =
      dget c2 m.active_connections) ∧
    (∀ u2, u2 ≠ u → dget u2 (disconnect u c m).user_channels = dget u2 m.user_channels ∧
      dget u2 (disconnect u c m).user_statuses = dget u2 m.user_statuses) ∧
    (disconnect u c m).active_calls = m.active_calls ∧
    (RegWF m → connKey m c u = false → disconnect u c m = m) := by
  refine ⟨?_, ?_, disconnect_calls u c m, ?_⟩
  · intro c2 hne
    rw [disconnect_AC_get, if_neg hne]
  · intro u2 hne
    exact ⟨by rw [disconnect_UC_get, if_neg hne], by rw [disconnect_US_get, if_neg hne]⟩
  · intro hwf hck
    obtain ⟨h1, h2, h3, h4⟩ := hwf
    have hcm : chanMem m u c = false := by rw [← h1 c u]; exact hck
    have hphase1 : disconnectConns u c m = m := by
      unfold disconnectConns
      cases hac : dget c m.active_connections with
      | none => rfl
      | some conns =>
          have hck2 : (dget u conns).isSome = false := by
            have hk : keyOfO u (dget c m.active_connections) = false := hck
            rw [hac] at hk
            exact hk
          have hdu : dget u conns = none := by
            cases ho : dget u conns with
            | none => rfl
            | some w => rw [ho] at hck2; simp at hck2
          have hpop : dpop u conns = conns := dpop_eq_of_dget_none hdu
          have hne : conns ≠ [] := h2 c conns hac
          have hE : conns.isEmpty = false := by
            cases hd : conns
            · exact absurd hd hne
            · rfl
          simp [hpop, hE, dset_eq_of_dget hac]
    have hphase2 : disconnectUser u c m = m := by
      unfold disconnectUser
      cases huc : dget u m.user_channels with
      | none => rfl
      | some chans =>
          have hcm2 : memOfO c (some chans) = false := by
            have hk : memOfO c (dget u m.user_channels) = false := hcm
            rw [huc] at hk
            exact hk
          have hnm : c ∉ chans := by simpa [memOfO] using hcm2
          have hdisc : sdiscard c chans = chans := sdiscard_eq_of_not_mem hnm
          have hne : chans ≠ [] := h3 u chans huc
          simp [hdisc, hne, dset_eq_of_dget huc]
    show disconnectUser u c (disconnectConns u c m) = m
    rw [hphase1, hphase2]

/-- The registry with only user B connected to channel g. -/
def mConnB : ConnectionManager Unit := runRegOps [RegOp.connect () "B" "g"] (manager Unit)

/-- C10 witness: disconnecting the never-registered pair (A, g) leaves the
state untouched, and another channel's connections are unaffected. -/
theorem c10_disconnect_total_witness :
    dget "h" (disconnect "A" "g" mConnB).active_connections =
      dget "h" mConnB.active_connections ∧
    disconnect "A" "g" mConnB = mConnB := by
  have h := c10_disconnect_total Unit "A" "g" mConnB
  exact ⟨h.1 "h" (by decide),
    h.2.2.2 (regWF_run [RegOp.connect () "B" "g"] (manager Unit) (regWF_manager Unit))
      (by decide)⟩

/-- The property C3 asserts of every loop-terminating exception: the call
leave ran, the registry disconnect ran, the `user_left` broadcast was
emitted, and the final state is the full disconnect-path cleanup state. -/
def fullCleanupRuns {WS : Type} (ev : TermEvent) (user_id channel_id : String) (now : Int)
    (m : ConnectionManager WS) : Prop :=
  CleanupAction.callLeft channel_id user_id ∈ (onLoopExit ev user_id channel_id now m).2 ∧
  CleanupAction.registryDisconnect user_id channel_id ∈
    (onLoopExit ev user_id channel_id now m).2 ∧
  CleanupAction.broadcastUserLeft channel_id ∈ (onLoopExit ev user_id channel_id now m).2 ∧
  (onLoopExit ev user_id channel_id now m).1 =
    disconnect user_id channel_id (leave_call channel_id user_id now m).1

/-- C3 counterexample: when the receive loop ends in a non-disconnect
exception while A is in the channel-g call, the handler performs only the
registry disconnect — no call leave and no `user_left` broadcast. -/
theorem c3_counterexample :
    ¬ (∀ (WS : Type) (ev : TermEvent) (u c : String) (now : Int) (m : ConnectionManager WS),
        fullCleanupRuns ev u c now m) := by
  intro hall
  have h := (hall Unit TermEvent.otherExc "A" "g" 10 mJoinA).1
  have habs :
      ¬ (CleanupAction.callLeft "g" "A" ∈
        (onLoopExit TermEvent.otherExc "A" "g" 10 mJoinA).2) := by decide
  exact habs h

/-- C3 amended: the `WebSocketDisconnect` handler runs the full
disconnect-path cleanup (call leave, registry disconnect, offline persistence
when the user has no remaining channels, `user_left` broadcast); any other
exception runs only the registry disconnect. -/
theorem c3_cleanup_by_exception_kind (WS : Type) (u c : String) (now : Int)
    (m : ConnectionManager WS) :
    (fullCleanupRuns TermEvent.wsDisconnect u c now m ∧
      ((dget u (onLoopExit TermEvent.wsDisconnect u c now m).1.user_channels).isNone = true →
        CleanupAction.persistOffline u ∈ (onLoopExit TermEvent.wsDisconnect u c now m).2)) ∧
    ((onLoopExit TermEvent.otherExc u c now m).1 = disconnect u c m ∧
      (onLoopExit TermEvent.otherExc u c now m).2 =
        [CleanupAction.registryDisconnect u c]) := by
  refine ⟨⟨?_, ?_⟩, rfl, rfl⟩
  · unfold fullCleanupRuns
    cases hdur : (leave_call c u now m).2 <;>
      cases hnone : (dget u (disconnect u c (leave_call c u now m).1).user_channels).isNone <;>
        simp [onLoopExit, hdur, hnone]
  · intro hn
    have hn2 :
        (dget u (disconnect u c (leave_call c u now m).1).user_channels).isNone = true := hn
    cases hdur : (leave_call c u now m).2 <;> simp [onLoopExit, hdur, hn2]

/-- C3 amended witness: on a graceful disconnect of the last connection the
offline persistence action is emitted. -/
theorem c3_cleanup_by_exception_kind_witness :
    CleanupAction.persistOffline "A" ∈
      (onLoopExit TermEvent.wsDisconnect "A" "g" 10 (manager Unit)).2 :=
  ((c3_cleanup_by_exception_kind Unit "A" "g" 10 (manager Unit)).1.2) (by decide)

end Agora
